import Mathlib

/-!
Verification of the diff-acquisition-and-parsing slice of the repository
(`src/app/src/lib/git/git-diff.ts`).

The source file contains the class `GitDiff` with three static members:
`getCommitDiff`, `getWorkingDirectoryDiff` (the invocation builders plus the
call into the process runner) and `diffFromRawDiffOutput` (the NUL splitter
feeding the diff parser).  The collaborators imported by the source
(`git`/`IGitExecutionOptions` from `./core`, the `FileStatus` model from
`../../models/status` and the `DiffParser` from `../diff-parser`) are not part
of the source slice, so they are modelled from the specification where a claim
depends on them.

JavaScript strings are embedded as Lean `String`s; the character-level
operations the source uses (`String.prototype.split`) are given explicit
structurally recursive definitions over `String.data` so that every
definition evaluates by kernel reduction.
-/

/-- JS `string.split(sep)` for a single-character separator, on the character
list: splits at every occurrence of `sep`; the empty list yields `[[]]`. -/
def splitChar (sep : Char) : List Char → List (List Char)
  | [] => [[]]
  | c :: cs =>
    if c = sep then [] :: splitChar sep cs
    else
      match splitChar sep cs with
      | [] => [[c]]
      | s :: ss => (c :: s) :: ss

/-- JS `string.split(sep)` lifted to `String`. -/
def jsSplit (sep : Char) (s : String) : List String :=
  (splitChar sep s.data).map String.mk

/-- Kinds of content lines in a unified diff (spec §3). -/
inductive DiffLineType
  | Added
  | Removed
  | Context
deriving DecidableEq

/-- A single line of a hunk (spec §3): content, kind, and the old and new
file line numbers (`Added` lines have no old number, `Removed` no new
number). -/
structure DiffLine where
  text : String
  kind : DiffLineType
  oldLineNumber : Option Nat
  newLineNumber : Option Nat
deriving DecidableEq

/-- A hunk: the declared old/new ranges and its ordered lines (spec §3). -/
structure DiffHunk where
  oldStartLine : Nat
  oldLineCount : Nat
  newStartLine : Nat
  newLineCount : Nat
  lines : List DiffLine
deriving DecidableEq

/-- The output artifact: an ordered sequence of hunks (spec §3). -/
structure Diff where
  hunks : List DiffHunk
deriving DecidableEq

/-- Result of parsing patch text (spec §7): a structured diff, a parse error
carrying the offending line, or the distinguished not-diffable outcome. -/
inductive ParseOutcome
  | ok (diff : Diff)
  | parseError (line : String)
  | notDiffable
deriving DecidableEq

/-- Parse a decimal numeral from a character list; `none` if empty or any
character is not a digit. -/
def parseNatL (l : List Char) : Option Nat :=
  if l = [] then none
  else l.foldl (fun acc c =>
    acc.bind fun n => if c.isDigit then some (n * 10 + (c.toNat - 48)) else none)
    (some 0)

/-- Parse one side of a hunk range, `"a,b"` or the abbreviated `"a"`
(count defaults to 1). -/
def parseRange (l : List Char) : Option (Nat × Nat) :=
  match splitChar ',' l with
  | [a] => (parseNatL a).map fun n => (n, 1)
  | [a, b] =>
    match parseNatL a, parseNatL b with
    | some x, some y => some (x, y)
    | _, _ => none
  | _ => none

/-- Parse a hunk header `@@ -os,oc +ns,nc @@ ...`, returning
`(oldStart, oldCount, newStart, newCount)`; `none` if malformed. -/
def parseHunkHeader (l : List Char) : Option (Nat × Nat × Nat × Nat) :=
  match splitChar ' ' l with
  | atat :: old :: new :: atat2 :: _ =>
    if atat = "@@".data ∧ atat2 = "@@".data then
      match old, new with
      | '-' :: ol, '+' :: nl =>
        match parseRange ol, parseRange nl with
        | some (os, oc), some (ns, nc) => some (os, oc, ns, nc)
        | _, _ => none
      | _, _ => none
    else none
  | _ => none

/-- A hunk currently being assembled: its header data and its lines in
reverse order. -/
structure HunkInProgress where
  oldStartLine : Nat
  oldLineCount : Nat
  newStartLine : Nat
  newLineCount : Nat
  rlines : List DiffLine
deriving DecidableEq

/-- Close the hunk under construction (if any), pushing it onto the reversed
hunk accumulator. -/
def closeHunk (cur : Option HunkInProgress) (hunks : List DiffHunk) : List DiffHunk :=
  match cur with
  | none => hunks
  | some h => ⟨h.oldStartLine, h.oldLineCount, h.newStartLine, h.newLineCount, h.rlines.reverse⟩ :: hunks

/-- Modelled from the spec: the line loop of the `DiffParser`
(`src/app/src/lib/diff-parser.ts`, not part of the source slice).  Spec §4.3:
recognize hunk headers and `+`/`-`/space line markers, keep running old/new
line counters reset at each hunk header from its declared ranges, fail with a
parse error on a malformed hunk header, report binary content as not
diffable, and treat lines with other markers (e.g. the no-newline notice) as
metadata.  Lines outside any hunk (per-file headers) are skipped. -/
def parseLinesAux : List (List Char) → Nat → Nat → Option HunkInProgress → List DiffHunk → ParseOutcome
  | [], _, _, cur, hunks => .ok ⟨(closeHunk cur hunks).reverse⟩
  | l :: rest, o, n, cur, hunks =>
    if "Binary files ".data.isPrefixOf l then .notDiffable
    else if "@@ ".data.isPrefixOf l then
      match parseHunkHeader l with
      | none => .parseError ⟨l⟩
      | some (os, oc, ns, nc) =>
        parseLinesAux rest os ns (some ⟨os, oc, ns, nc, []⟩) (closeHunk cur hunks)
    else
      match cur with
      | none => parseLinesAux rest o n none hunks
      | some h =>
        match l with
        | '+' :: _ =>
          parseLinesAux rest o (n + 1)
            (some { h with rlines := ⟨⟨l⟩, .Added, none, some n⟩ :: h.rlines }) hunks
        | '-' :: _ =>
          parseLinesAux rest (o + 1) n
            (some { h with rlines := ⟨⟨l⟩, .Removed, some o, none⟩ :: h.rlines }) hunks
        | ' ' :: _ =>
          parseLinesAux rest (o + 1) (n + 1)
            (some { h with rlines := ⟨⟨l⟩, .Context, some o, some n⟩ :: h.rlines }) hunks
        | '\\' :: _ => parseLinesAux rest o n cur hunks
        | _ => parseLinesAux rest o n none (closeHunk cur hunks)

/-- Modelled from the spec: the `DiffParser` state (spec §4.3) — a running
old-file line counter and new-file line counter. -/
structure DiffParser where
  oldLine : Nat
  newLine : Nat
deriving DecidableEq

/-- A freshly constructed parser (`new DiffParser()`): counters start fresh. -/
def DiffParser.new : DiffParser := ⟨0, 0⟩

/-- Modelled from the spec: `DiffParser.parse` (spec §4.3) — split the patch
text into lines and run the line loop from the counters of this parser. -/
def DiffParser.parse (p : DiffParser) (text : String) : ParseOutcome :=
  parseLinesAux (splitChar '\n' text.data) p.oldLine p.newLine none []

/-- Modelled from the spec: the working-directory file statuses from
`src/app/src/lib/models/status.ts` (not part of the source slice).  Spec §3:
`New`, `Renamed`, `Modified` (default case), or others not relevant to
diffing logic (e.g. deleted or conflicted files). -/
inductive FileStatus
  | New
  | Modified
  | Deleted
  | Renamed
  | Conflicted
deriving DecidableEq

/-- A file change identified by its path (`FileChange` in the status model). -/
structure FileChange where
  path : String

/-- A working-directory file change: a path together with its status
(`WorkingDirectoryFileChange` in the status model). -/
structure WorkingDirectoryFileChange where
  path : String
  status : FileStatus

/-- A repository, identified by its filesystem path. -/
structure Repository where
  path : String

/-- Modelled from the spec: the execution options accepted by the process
runner (`IGitExecutionOptions` from `src/app/src/lib/git/core.ts`, not part
of the source slice): an optional set of successful exit codes. -/
structure IGitExecutionOptions where
  successExitCodes : Option (Finset Nat)
deriving DecidableEq

/-- One invocation of the external tool: argument list, working directory,
and optional execution options (`opts = none` when the source passes no
options). -/
structure GitInvocation where
  args : List String
  cwd : String
  opts : Option IGitExecutionOptions
deriving DecidableEq

/-- Modelled from the spec: the exit codes the process runner treats as
success (spec §6) — the `successExitCodes` of the invocation if provided,
otherwise the default `{0}`. -/
def acceptedExitCodes (opts : Option IGitExecutionOptions) : Finset Nat :=
  (opts.bind (·.successExitCodes)).getD {0}

/-- Modelled from the spec: whether the process runner treats an exit code as
success — it fails exactly when the code is outside the accepted set. -/
def isSuccessExitCode (opts : Option IGitExecutionOptions) (code : Nat) : Bool :=
  code ∈ acceptedExitCodes opts

namespace GitDiff

/-- The invocation built by `GitDiff.getCommitDiff`: argument list
`log <commitish> -m -1 --first-parent --patch-with-raw -z -- <path>`, run in
the repository, with no execution options. -/
def getCommitDiffInvocation (repository : Repository) (file : FileChange)
    (commitish : String) : GitInvocation :=
  { args := ["log", commitish, "-m", "-1", "--first-parent", "--patch-with-raw", "-z", "--", file.path]
    cwd := repository.path
    opts := none }

/-- The invocation built by `GitDiff.getWorkingDirectoryDiff`: dispatch on the
status of the file exactly as the source does (`New`, then `Renamed`, then the
default branch). -/
def getWorkingDirectoryDiffInvocation (repository : Repository)
    (file : WorkingDirectoryFileChange) : GitInvocation :=
  if file.status = FileStatus.New then
    { args := ["diff", "--no-index", "--patch-with-raw", "-z", "--", "/dev/null", file.path]
      cwd := repository.path
      opts := some { successExitCodes := some {0, 1} } }
  else if file.status = FileStatus.Renamed then
    { args := ["diff", "--patch-with-raw", "-z", "--", file.path]
      cwd := repository.path
      opts := none }
  else
    { args := ["diff", "HEAD", "--patch-with-raw", "-z", "--", file.path]
      cwd := repository.path
      opts := none }

/-- `GitDiff.diffFromRawDiffOutput`: split the stdout of the tool on NUL and parse
the last piece (`pieces[pieces.length - 1]`) with a freshly constructed
parser.  `splitChar` never returns an empty list, so the default of
`getLastD` is never used. -/
def diffFromRawDiffOutput (result : String) : ParseOutcome :=
  let pieces := jsSplit '\x00' result
  DiffParser.new.parse (pieces.getLastD "")

/-- `GitDiff.getCommitDiff` with the process runner abstracted as a function
from invocations to stdout text: build the commit invocation, run it, parse
the output. -/
def getCommitDiff (gitExec : GitInvocation → String) (repository : Repository)
    (file : FileChange) (commitish : String) : ParseOutcome :=
  diffFromRawDiffOutput (gitExec (getCommitDiffInvocation repository file commitish))

/-- `GitDiff.getWorkingDirectoryDiff` with the process runner abstracted as a
function from invocations to stdout text. -/
def getWorkingDirectoryDiff (gitExec : GitInvocation → String)
    (repository : Repository) (file : WorkingDirectoryFileChange) : ParseOutcome :=
  diffFromRawDiffOutput (gitExec (getWorkingDirectoryDiffInvocation repository file))

end GitDiff

/-! ## Basic properties of the splitter -/

theorem splitChar_ne_nil (sep : Char) (l : List Char) : splitChar sep l ≠ [] := by
  induction l with
  | nil => simp [splitChar]
  | cons c cs ih =>
    rw [splitChar]
    by_cases h : c = sep
    · simp [h]
    · rw [if_neg h]
      cases hs : splitChar sep cs <;> simp

theorem splitChar_of_not_mem (sep : Char) (l : List Char) (h : sep ∉ l) :
    splitChar sep l = [l] := by
  induction l with
  | nil => rfl
  | cons c cs ih =>
    simp only [List.mem_cons, not_or] at h
    rw [splitChar, if_neg (fun e => h.1 e.symm), ih h.2]

theorem splitChar_append_cons (sep : Char) (a b : List Char) :
    splitChar sep (a ++ sep :: b) = splitChar sep a ++ splitChar sep b := by
  induction a with
  | nil => simp [splitChar]
  | cons c cs ih =>
    by_cases h : c = sep
    · subst h
      simp [splitChar, ih]
    · show splitChar sep (c :: (cs ++ sep :: b)) = splitChar sep (c :: cs) ++ splitChar sep b
      rw [splitChar, if_neg h, ih]
      cases hs : splitChar sep cs with
      | nil => exact absurd hs (splitChar_ne_nil sep cs)
      | cons s ss =>
        rw [splitChar, if_neg h, hs]
        simp

/-! ## The claims -/

/-- Claim C1: for a working-directory diff request on a file whose status is
`New`, the constructed invocation is a no-index comparison of the file
against the empty file `/dev/null`, and the execution options accept exactly
the exit codes 0 and 1 as success (so exit code 1 succeeds and, e.g., exit
code 2 fails). -/
theorem new_file_no_index_exit_codes_01 (repository : Repository)
    (file : WorkingDirectoryFileChange) (h : file.status = FileStatus.New) :
    (GitDiff.getWorkingDirectoryDiffInvocation repository file).args
      = ["diff", "--no-index", "--patch-with-raw", "-z", "--", "/dev/null", file.path] ∧
    ∀ code : Nat,
      isSuccessExitCode (GitDiff.getWorkingDirectoryDiffInvocation repository file).opts code = true
        ↔ (code = 0 ∨ code = 1) := by
  rw [GitDiff.getWorkingDirectoryDiffInvocation, if_pos h]
  refine ⟨rfl, fun code => ?_⟩
  simp [isSuccessExitCode, acceptedExitCodes]

/-- Witness for C1 at a concrete new file. -/
theorem new_file_no_index_exit_codes_01_witness :
    ((⟨"a.txt", FileStatus.New⟩ : WorkingDirectoryFileChange).status = FileStatus.New) ∧
    ((GitDiff.getWorkingDirectoryDiffInvocation ⟨"/repo"⟩ ⟨"a.txt", FileStatus.New⟩).args
       = ["diff", "--no-index", "--patch-with-raw", "-z", "--", "/dev/null", "a.txt"] ∧
     ∀ code : Nat,
       isSuccessExitCode
           (GitDiff.getWorkingDirectoryDiffInvocation ⟨"/repo"⟩ ⟨"a.txt", FileStatus.New⟩).opts code = true
         ↔ (code = 0 ∨ code = 1)) :=
  ⟨rfl, new_file_no_index_exit_codes_01 ⟨"/repo"⟩ ⟨"a.txt", FileStatus.New⟩ rfl⟩

/-- Claim C2: `diffFromRawDiffOutput` splits the full response on NUL and
parses exactly the last segment with a fresh parser, discarding all preceding
segments (for any preceding material `pre`, even containing further NULs);
a response containing no NUL is used as-is as the single segment. -/
theorem split_on_nul_parses_last_segment (pre patch : String)
    (h : '\x00' ∉ patch.data) :
    GitDiff.diffFromRawDiffOutput (pre ++ "\x00" ++ patch) = DiffParser.new.parse patch ∧
    GitDiff.diffFromRawDiffOutput patch = DiffParser.new.parse patch := by
  have hdata : (pre ++ "\x00" ++ patch).data = pre.data ++ '\x00' :: patch.data := by
    show (pre.data ++ ['\x00']) ++ patch.data = _
    rw [List.append_assoc]
    rfl
  constructor
  · show DiffParser.new.parse ((jsSplit '\x00' (pre ++ "\x00" ++ patch)).getLastD "") = _
    unfold jsSplit
    rw [hdata, splitChar_append_cons, splitChar_of_not_mem _ _ h, List.map_append]
    simp only [List.map_cons, List.map_nil, List.getLastD_concat]
  · show DiffParser.new.parse ((jsSplit '\x00' patch).getLastD "") = _
    unfold jsSplit
    rw [splitChar_of_not_mem _ _ h]
    simp [List.getLastD]

/-- Witness for C2 at the response of the spec (§8): raw summary, NUL, patch. -/
theorem split_on_nul_parses_last_segment_witness :
    ('\x00' ∉ "diff --git a/x b/x\n@@ -1,1 +1,1 @@\n-old\n+new\n".data) ∧
    (GitDiff.diffFromRawDiffOutput
        ("RAW_SUMMARY" ++ "\x00" ++ "diff --git a/x b/x\n@@ -1,1 +1,1 @@\n-old\n+new\n")
       = DiffParser.new.parse "diff --git a/x b/x\n@@ -1,1 +1,1 @@\n-old\n+new\n" ∧
     GitDiff.diffFromRawDiffOutput "diff --git a/x b/x\n@@ -1,1 +1,1 @@\n-old\n+new\n"
       = DiffParser.new.parse "diff --git a/x b/x\n@@ -1,1 +1,1 @@\n-old\n+new\n") :=
  ⟨by decide,
   split_on_nul_parses_last_segment "RAW_SUMMARY"
     "diff --git a/x b/x\n@@ -1,1 +1,1 @@\n-old\n+new\n" (by decide)⟩

/-- Claim C3: the commit-relative invocation shows the log entry for the
given commit-ish restricted to exactly one entry (`-1`), first-parent only
(`--first-parent`, with `-m` to show merge diffs), requests combined
patch-and-raw output (`--patch-with-raw`) with NUL delimiters (`-z`), and is
scoped to exactly the given file path after the `--` separator. -/
theorem commit_diff_invocation_args (repository : Repository) (file : FileChange)
    (commitish : String) :
    (GitDiff.getCommitDiffInvocation repository file commitish).args
      = ["log", commitish, "-m", "-1", "--first-parent", "--patch-with-raw", "-z", "--", file.path] :=
  rfl

/-- Claim C4: for a working-directory diff request on a `Renamed` file, the
argument list compares against the index (a bare `diff` with no revision
argument) and never references the last commit: `HEAD` does not occur among
the arguments (unless the path of the file itself is the literal `HEAD`). -/
theorem renamed_diffs_against_index (repository : Repository)
    (file : WorkingDirectoryFileChange) (h : file.status = FileStatus.Renamed) :
    (GitDiff.getWorkingDirectoryDiffInvocation repository file).args
      = ["diff", "--patch-with-raw", "-z", "--", file.path] ∧
    (file.path ≠ "HEAD" →
      "HEAD" ∉ (GitDiff.getWorkingDirectoryDiffInvocation repository file).args) := by
  rw [GitDiff.getWorkingDirectoryDiffInvocation, h]
  rw [if_neg (by decide : ¬(FileStatus.Renamed = FileStatus.New)), if_pos rfl]
  refine ⟨rfl, fun hp => ?_⟩
  simp [List.mem_cons, Ne.symm hp]

/-- Witness for C4 at a concrete renamed file. -/
theorem renamed_diffs_against_index_witness :
    ((⟨"b.txt", FileStatus.Renamed⟩ : WorkingDirectoryFileChange).status = FileStatus.Renamed) ∧
    ((GitDiff.getWorkingDirectoryDiffInvocation ⟨"/repo"⟩ ⟨"b.txt", FileStatus.Renamed⟩).args
       = ["diff", "--patch-with-raw", "-z", "--", "b.txt"] ∧
     ("b.txt" ≠ "HEAD" →
       "HEAD" ∉ (GitDiff.getWorkingDirectoryDiffInvocation ⟨"/repo"⟩ ⟨"b.txt", FileStatus.Renamed⟩).args)) :=
  ⟨rfl, renamed_diffs_against_index ⟨"/repo"⟩ ⟨"b.txt", FileStatus.Renamed⟩ rfl⟩

/-- Claim C5: for a working-directory diff request on a file in the
default/`Modified` case, the argument list references the last commit: it is
`diff HEAD --patch-with-raw -z -- <path>`, and `HEAD` occurs among the
arguments. -/
theorem modified_diffs_against_head (repository : Repository)
    (file : WorkingDirectoryFileChange) (h : file.status = FileStatus.Modified) :
    (GitDiff.getWorkingDirectoryDiffInvocation repository file).args
      = ["diff", "HEAD", "--patch-with-raw", "-z", "--", file.path] ∧
    "HEAD" ∈ (GitDiff.getWorkingDirectoryDiffInvocation repository file).args := by
  rw [GitDiff.getWorkingDirectoryDiffInvocation, h]
  rw [if_neg (by decide : ¬(FileStatus.Modified = FileStatus.New)),
    if_neg (by decide : ¬(FileStatus.Modified = FileStatus.Renamed))]
  exact ⟨rfl, by simp⟩

/-- Witness for C5 at a concrete modified file. -/
theorem modified_diffs_against_head_witness :
    ((⟨"c.txt", FileStatus.Modified⟩ : WorkingDirectoryFileChange).status = FileStatus.Modified) ∧
    ((GitDiff.getWorkingDirectoryDiffInvocation ⟨"/repo"⟩ ⟨"c.txt", FileStatus.Modified⟩).args
       = ["diff", "HEAD", "--patch-with-raw", "-z", "--", "c.txt"] ∧
     "HEAD" ∈ (GitDiff.getWorkingDirectoryDiffInvocation ⟨"/repo"⟩ ⟨"c.txt", FileStatus.Modified⟩).args) :=
  ⟨rfl, modified_diffs_against_head ⟨"/repo"⟩ ⟨"c.txt", FileStatus.Modified⟩ rfl⟩

/-- Claim C6: the commit-relative request passes no execution options, so the
process runner accepts exactly the default exit-code set: only exit code 0 is
success and any nonzero exit code is a failure. -/
theorem commit_diff_default_exit_codes (repository : Repository) (file : FileChange)
    (commitish : String) :
    (GitDiff.getCommitDiffInvocation repository file commitish).opts = none ∧
    ∀ code : Nat,
      isSuccessExitCode (GitDiff.getCommitDiffInvocation repository file commitish).opts code = true
        ↔ code = 0 := by
  refine ⟨rfl, fun code => ?_⟩
  simp [isSuccessExitCode, acceptedExitCodes, GitDiff.getCommitDiffInvocation]

/-- Claim C7: every working-directory invocation, for every status, requests
combined patch-and-raw output (`--patch-with-raw`) with NUL-delimited
sections (`-z`), carries the pathspec separator `--`, and its final argument
is exactly the given file path. -/
theorem wd_invocations_patch_raw_nul_scoped (repository : Repository)
    (file : WorkingDirectoryFileChange) :
    "--patch-with-raw" ∈ (GitDiff.getWorkingDirectoryDiffInvocation repository file).args ∧
    "-z" ∈ (GitDiff.getWorkingDirectoryDiffInvocation repository file).args ∧
    "--" ∈ (GitDiff.getWorkingDirectoryDiffInvocation repository file).args ∧
    (GitDiff.getWorkingDirectoryDiffInvocation repository file).args.getLastD "" = file.path := by
  obtain ⟨p, st⟩ := file
  cases st <;> simp [GitDiff.getWorkingDirectoryDiffInvocation, List.getLastD]

/-- Claim C8: an entirely empty tool response is tolerated — splitting the
empty string yields the empty patch text as the single segment, and parsing
it produces a diff with zero hunks. -/
theorem empty_response_zero_hunks :
    jsSplit '\x00' "" = [""] ∧
    GitDiff.diffFromRawDiffOutput "" = ParseOutcome.ok ⟨[]⟩ := by
  decide

/-- Claim C9: every working-directory status other than `New` and `Renamed`
(e.g. deleted or conflicted files) falls through to the default branch: the
invocation is identical to the `Modified` one and diffs against `HEAD`. -/
theorem other_statuses_default_to_head (repository : Repository) (p : String)
    (st : FileStatus) (h1 : st ≠ FileStatus.New) (h2 : st ≠ FileStatus.Renamed) :
    GitDiff.getWorkingDirectoryDiffInvocation repository ⟨p, st⟩
      = GitDiff.getWorkingDirectoryDiffInvocation repository ⟨p, FileStatus.Modified⟩ ∧
    (GitDiff.getWorkingDirectoryDiffInvocation repository ⟨p, st⟩).args
      = ["diff", "HEAD", "--patch-with-raw", "-z", "--", p] := by
  rw [GitDiff.getWorkingDirectoryDiffInvocation, GitDiff.getWorkingDirectoryDiffInvocation]
  rw [if_neg h1, if_neg h2,
    if_neg (by decide : ¬(FileStatus.Modified = FileStatus.New)),
    if_neg (by decide : ¬(FileStatus.Modified = FileStatus.Renamed))]
  exact ⟨rfl, rfl⟩

/-- Witness for C9 at a concrete deleted file. -/
theorem other_statuses_default_to_head_witness :
    (FileStatus.Deleted ≠ FileStatus.New) ∧ (FileStatus.Deleted ≠ FileStatus.Renamed) ∧
    (GitDiff.getWorkingDirectoryDiffInvocation ⟨"/repo"⟩ ⟨"d.txt", FileStatus.Deleted⟩
       = GitDiff.getWorkingDirectoryDiffInvocation ⟨"/repo"⟩ ⟨"d.txt", FileStatus.Modified⟩ ∧
     (GitDiff.getWorkingDirectoryDiffInvocation ⟨"/repo"⟩ ⟨"d.txt", FileStatus.Deleted⟩).args
       = ["diff", "HEAD", "--patch-with-raw", "-z", "--", "d.txt"]) :=
  ⟨by decide, by decide,
   other_statuses_default_to_head ⟨"/repo"⟩ "d.txt" FileStatus.Deleted (by decide) (by decide)⟩

/-- Claim C10: diff construction from raw tool output is deterministic and
stateless across calls — each call parses with a freshly constructed parser,
so in any sequence of requests the result of a request depends only on its
own stdout text: equal inputs at any two positions give equal results. -/
theorem diff_construction_stateless (inputs : List String) (i j : Nat)
    (hi : i < inputs.length) (hj : j < inputs.length)
    (h : inputs.get ⟨i, hi⟩ = inputs.get ⟨j, hj⟩) :
    (inputs.map GitDiff.diffFromRawDiffOutput).get ⟨i, by simpa using hi⟩
      = (inputs.map GitDiff.diffFromRawDiffOutput).get ⟨j, by simpa using hj⟩ := by
  simp only [List.get_eq_getElem, List.getElem_map]
  exact congrArg GitDiff.diffFromRawDiffOutput (by simpa using h)

/-- Witness for C10: the same response at positions 0 and 2 of a request
sequence, with a different request in between, parses to the same diff. -/
theorem diff_construction_stateless_witness :
    (0 < (["a\x00x", "b", "a\x00x"] : List String).length) ∧
    (2 < (["a\x00x", "b", "a\x00x"] : List String).length) ∧
    ((["a\x00x", "b", "a\x00x"] : List String).get ⟨0, by decide⟩
       = (["a\x00x", "b", "a\x00x"] : List String).get ⟨2, by decide⟩) ∧
    ((["a\x00x", "b", "a\x00x"] : List String).map GitDiff.diffFromRawDiffOutput).get ⟨0, by simp⟩
      = ((["a\x00x", "b", "a\x00x"] : List String).map GitDiff.diffFromRawDiffOutput).get ⟨2, by simp⟩ :=
  ⟨by decide, by decide, by decide,
   diff_construction_stateless ["a\x00x", "b", "a\x00x"] 0 2 (by decide) (by decide) (by decide)⟩
